import Mathlib

/-!
Shallow embedding of `src/main.py` (class `NWSDiscordBot`) and proofs about
its polling / change-detection / restart logic.

Modelling conventions:
* Time is an integer number of time units (`Nat`); `datetime.now()` becomes an
  explicit `now : Nat` argument.  `(datetime.now() - self.last_success).seconds`
  is the seconds field of a Python `timedelta`, i.e. the elapsed time modulo
  86400 (one day).
* The MD5 digest from `hashlib` is an opaque parameter `md5 : String → String`;
  the code only ever compares digests for equality.
* HTTP and HTML parsing are external collaborators: a fetch attempt is an
  input value `FetchResult` (transport error, non-2xx status raised by
  `raise_for_status`, or a parsed page whose `glossaryProduct` element is
  either absent or present with some raw text).  Delivery of one outbound
  webhook POST is an oracle `deliver : Nat → Bool` giving the outcome of the
  POST for each chunk index.
* Python truthiness of `if content:` is `content` being neither `None` nor
  the empty string.
-/

/-- Mutable state of an `NWSDiscordBot` object: `self.last_hash`,
`self.error_count` and `self.last_success` (timestamp, `None` until set). -/
structure BotState where
  last_hash : Option String
  error_count : Nat
  last_success : Option Nat
deriving DecidableEq

/-- `NWSDiscordBot.__init__`: `last_hash = None`, `error_count = 0`,
`last_success = None`. -/
def initState : BotState :=
  { last_hash := none, error_count := 0, last_success := none }

/-- Result of one HTTP GET + parse of the forecast page, as seen by
`get_forecast_discussion`: a raised transport exception, a non-2xx status
(raised by `raise_for_status`), or a parsed document whose marked
`glossaryProduct` region is absent (`none`) or present with raw text. -/
inductive FetchResult where
  | transportError : FetchResult
  | badStatus : FetchResult
  | page : Option String → FetchResult
deriving DecidableEq

/-- Python `str.strip()` modelled on the character list: drop whitespace from
both ends. -/
def strip (s : String) : String :=
  String.mk (((s.data.dropWhile Char.isWhitespace).reverse.dropWhile
    Char.isWhitespace).reverse)

/-- `NWSDiscordBot.get_forecast_discussion`: on an exception (transport error
or non-2xx status) or a missing `glossaryProduct` section, increment
`error_count` and return `None`; otherwise reset `error_count` to 0, set
`last_success` to the current time and return the stripped text. -/
def get_forecast_discussion (now : Nat) (s : BotState) (r : FetchResult) :
    BotState × Option String :=
  match r with
  | .transportError => ({ s with error_count := s.error_count + 1 }, none)
  | .badStatus => ({ s with error_count := s.error_count + 1 }, none)
  | .page none => ({ s with error_count := s.error_count + 1 }, none)
  | .page (some raw) =>
    ({ s with error_count := 0, last_success := some now }, some (strip raw))

/-- `NWSDiscordBot.calculate_hash`: the MD5 hex digest of the content
(the digest function itself is the parameter `md5`). -/
def calculate_hash (md5 : String → String) (content : String) : String :=
  md5 content

/-- The chunk list of `send_discord_message`:
`[content[i:i+1900] for i in range(0, len(content), 1900)]`, written with the
chunk number `k` (so `i = 1900 * k`); `range(0, L, 1900)` has
`(L + 1899) / 1900` elements. -/
def chunks (content : String) : List String :=
  (List.range ((content.length + 1899) / 1900)).map
    (fun k => String.mk ((content.data.drop (1900 * k)).take 1900))

/-- The `for chunk in chunks` loop of `send_discord_message`: each chunk is
wrapped in triple backticks and posted; a failed POST (per the `deliver`
oracle, indexed by chunk position) increments `error_count` and the loop
continues.  Returns the final state and the list of messages attempted. -/
def send_chunks (deliver : Nat → Bool) :
    Nat → List String → BotState → BotState × List String
  | _, [], s => (s, [])
  | i, chunk :: rest, s =>
    let s1 := if deliver i then s else { s with error_count := s.error_count + 1 }
    let r := send_chunks deliver (i + 1) rest s1
    (r.1, ("```" ++ chunk ++ "```") :: r.2)

/-- `NWSDiscordBot.send_discord_message`: split into chunks of at most 1900
characters, then post each chunk in order, absorbing per-chunk failures. -/
def send_discord_message (deliver : Nat → Bool) (s : BotState)
    (content : String) : BotState × List String :=
  send_chunks deliver 0 (chunks content) s

/-- `NWSDiscordBot.should_restart`: true when `error_count >= 5`, or when
`last_success` is set and `(now - last_success).seconds > 3600` — where
`.seconds` of a Python `timedelta` is the elapsed time modulo 86400. -/
def should_restart (now : Nat) (s : BotState) : Bool :=
  if 5 ≤ s.error_count then true
  else
    match s.last_success with
    | some t => decide (3600 < (now - t) % 86400)
    | none => false

/-- Lines 86–87 of `run`: on entering the outer loop (a new polling session),
`error_count` is reset to 0 and `last_success` is set to the current time;
`last_hash` is left untouched. -/
def startSession (now : Nat) (s : BotState) : BotState :=
  { s with error_count := 0, last_success := some now }

/-- State effect of one failed fetch attempt (the Health Monitor's
`record_failure`): `get_forecast_discussion` on a failing fetch. -/
def record_failure (now : Nat) (s : BotState) : BotState :=
  (get_forecast_discussion now s FetchResult.transportError).1

/-- One iteration of the inner `while not self.should_restart()` loop of
`run` (lines 93–105): fetch; if the content is truthy, hash it; on first
observation (`last_hash is None`) set `last_hash` and announce with the
"Bot started" framing; on a changed hash set `last_hash` and announce with
the "New forecast update" framing; otherwise do nothing.  Returns the new
state and the messages dispatched this iteration. -/
def run_iteration (md5 : String → String) (deliver : Nat → Bool) (now : Nat)
    (r : FetchResult) (s : BotState) : BotState × List String :=
  match get_forecast_discussion now s r with
  | (s1, some content) =>
    if content = "" then (s1, [])
    else
      let current_hash := calculate_hash md5 content
      match s1.last_hash with
      | none =>
        send_discord_message deliver { s1 with last_hash := some current_hash }
          ("Bot started. Current forecast:\n\n" ++ content)
      | some lh =>
        if current_hash ≠ lh then
          send_discord_message deliver { s1 with last_hash := some current_hash }
            ("New forecast update:\n\n" ++ content)
        else (s1, [])
  | (s1, none) => (s1, [])

/-- C9: every fetch attempt either fails (transport error, non-2xx status, or
missing marked region) — returning no content and incrementing the error
counter by one — or succeeds, resetting the error counter to zero, recording
the current time as last success, and returning the extracted text stripped
of surrounding whitespace. -/
theorem get_forecast_discussion_spec (now : Nat) (s : BotState) :
    get_forecast_discussion now s FetchResult.transportError =
      ({ s with error_count := s.error_count + 1 }, none) ∧
    get_forecast_discussion now s FetchResult.badStatus =
      ({ s with error_count := s.error_count + 1 }, none) ∧
    get_forecast_discussion now s (FetchResult.page none) =
      ({ s with error_count := s.error_count + 1 }, none) ∧
    ∀ raw, get_forecast_discussion now s (FetchResult.page (some raw)) =
      ({ s with error_count := 0, last_success := some now }, some (strip raw)) :=
  ⟨rfl, rfl, rfl, fun _ => rfl⟩

/-- C3 (failing input): with `error_count = 0` and the last success recorded
90000 time units ago (25 hours), `should_restart` returns `false`, because
the code tests the `timedelta.seconds` field (elapsed mod 86400 = 3600, not
greater than 3600) instead of the total elapsed time, although 90000 > 3600
time units have elapsed since the last recorded success. -/
theorem should_restart_day_wrap :
    should_restart 90000
      { last_hash := none, error_count := 0, last_success := some 0 } = false := by
  decide

/-- C4: with the time-based condition not met, `should_restart` flips from
`false` to `true` exactly at the fifth consecutive recorded failure; in
general its error-count branch holds exactly when `error_count ≥ 5`. -/
theorem should_restart_error_threshold (now : Nat) (s : BotState)
    (h0 : s.error_count = 0)
    (ht : ∀ t, s.last_success = some t → (now - t) % 86400 ≤ 3600) :
    should_restart now ((record_failure now)^[5] s) = true ∧
    should_restart now ((record_failure now)^[4] s) = false ∧
    (∀ s2 : BotState, (∀ t, s2.last_success = some t → (now - t) % 86400 ≤ 3600) →
      (should_restart now s2 = true ↔ 5 ≤ s2.error_count)) := by
  have hiter : ∀ n : Nat, (record_failure now)^[n] s =
      { s with error_count := s.error_count + n } := by
    intro n
    induction n with
    | zero => simp
    | succ n ih =>
      rw [Function.iterate_succ_apply', ih]
      rfl
  have hbranch : ∀ s2 : BotState,
      (∀ t, s2.last_success = some t → (now - t) % 86400 ≤ 3600) →
      (should_restart now s2 = true ↔ 5 ≤ s2.error_count) := by
    intro s2 ht2
    unfold should_restart
    by_cases h5 : 5 ≤ s2.error_count
    · simp [h5]
    · simp only [h5, if_false]
      constructor
      · intro hmatch
        exfalso
        cases hls : s2.last_success with
        | none => rw [hls] at hmatch; exact Bool.false_ne_true hmatch
        | some t =>
          rw [hls] at hmatch
          have := of_decide_eq_true hmatch
          exact absurd this (Nat.not_lt.mpr (ht2 t hls))
      · intro h; exact h.elim
  refine ⟨?_, ?_, hbranch⟩
  · rw [hiter 5]
    have : ({ s with error_count := s.error_count + 5 } : BotState).error_count = 5 := by
      rw [h0]
    unfold should_restart
    simp [this]
  · rw [hiter 4]
    have hec : ({ s with error_count := s.error_count + 4 } : BotState).error_count = 4 := by
      simp [h0]
    have hls : ({ s with error_count := s.error_count + 4 } : BotState).last_success =
        s.last_success := rfl
    rw [Bool.eq_false_iff]
    intro htrue
    have := (hbranch { s with error_count := s.error_count + 4 }
      (by rw [hls]; exact ht)).mp htrue
    rw [hec] at this
    omega

/-- C4 witness: from a fresh bot state at time 0, five consecutive failed
fetches make `should_restart` true while four leave it false. -/
theorem should_restart_error_threshold_wit :
    should_restart 0 ((record_failure 0)^[5] initState) = true ∧
    should_restart 0 ((record_failure 0)^[4] initState) = false := by
  have h := should_restart_error_threshold 0 initState rfl
    (fun t ht => by exact absurd ht (by simp [initState]))
  exact ⟨h.1, h.2.1⟩

/-- C5 counterexample: a session state freshly created by `run`'s outer loop
(zero recorded successes, zero recorded errors) does trigger the time-based
restart: `run` initialises `last_success` to the session start time, so 3601
time units after a session start at time 0, `should_restart` is already
`true` even though `error_count` is 0 and no fetch has ever succeeded. -/
theorem should_restart_fresh_session_cex :
    (startSession 0 initState).error_count = 0 ∧
    (startSession 0 initState).last_hash = none ∧
    should_restart 3601 (startSession 0 initState) = true := by
  refine ⟨rfl, rfl, ?_⟩
  decide

/-- C5 amended: a session with zero recorded successes and zero recorded
errors starts with `last_success` set to the session start time `t0` (line 87
of `run`), so `should_restart` is not always false for it: it returns true
exactly when the elapsed time since session start, taken modulo 86400,
exceeds 3600. -/
theorem should_restart_fresh_session_iff (t0 now : Nat) (s : BotState) :
    should_restart now (startSession t0 s) = true ↔ 3600 < (now - t0) % 86400 := by
  unfold should_restart startSession
  simp

lemma string_ext {a b : String} (h : a.data = b.data) : a = b := by
  cases a
  cases b
  exact congrArg String.mk h

lemma string_eq_empty_of_data {s : String} (h : s.data = []) : s = "" := by
  cases s
  cases h
  rfl

lemma length_pos_of_ne_empty {s : String} (h : s ≠ "") : 0 < s.length := by
  cases hd : s.data with
  | nil => exact absurd (string_eq_empty_of_data hd) h
  | cons c t =>
    have : s.length = s.data.length := rfl
    rw [this, hd]
    exact Nat.succ_pos _

lemma append_ne_empty_left (a b : String) (h : a ≠ "") : a ++ b ≠ "" := by
  intro hcon
  apply h
  apply string_eq_empty_of_data
  have hd : (a ++ b).data = a.data ++ b.data := rfl
  have : (a ++ b).data = [] := by rw [hcon]
  rw [hd] at this
  exact (List.append_eq_nil.mp this).1

lemma chunks_ne_nil {msg : String} (h : msg ≠ "") : chunks msg ≠ [] := by
  have hp : 0 < msg.length := length_pos_of_ne_empty h
  unfold chunks
  intro hcon
  rw [List.map_eq_nil_iff, List.range_eq_nil] at hcon
  omega

lemma send_chunks_snd (deliver : Nat → Bool) (cs : List String) :
    ∀ (i : Nat) (s : BotState), (send_chunks deliver i cs s).2 =
      cs.map (fun chunk => "```" ++ chunk ++ "```") := by
  induction cs with
  | nil => intro i s; rfl
  | cons c rest ih =>
    intro i s
    simp only [send_chunks, List.map_cons]
    rw [ih]

lemma send_chunks_last_hash (deliver : Nat → Bool) (cs : List String) :
    ∀ (i : Nat) (s : BotState), (send_chunks deliver i cs s).1.last_hash =
      s.last_hash := by
  induction cs with
  | nil => intro i s; rfl
  | cons c rest ih =>
    intro i s
    simp only [send_chunks]
    rw [ih]
    by_cases hd : deliver i <;> simp [hd]

lemma send_chunks_last_success (deliver : Nat → Bool) (cs : List String) :
    ∀ (i : Nat) (s : BotState), (send_chunks deliver i cs s).1.last_success =
      s.last_success := by
  induction cs with
  | nil => intro i s; rfl
  | cons c rest ih =>
    intro i s
    simp only [send_chunks]
    rw [ih]
    by_cases hd : deliver i <;> simp [hd]

lemma send_chunks_error_count (deliver : Nat → Bool) (cs : List String) :
    ∀ (i : Nat) (s : BotState), (send_chunks deliver i cs s).1.error_count =
      s.error_count + (List.range cs.length).countP (fun k => !(deliver (i + k))) := by
  induction cs with
  | nil => intro i s; simp [send_chunks]
  | cons c rest ih =>
    intro i s
    simp only [send_chunks, List.length_cons]
    rw [ih]
    rw [List.range_succ_eq_map, List.countP_cons, List.countP_map]
    have hfun : ((fun k => !(deliver (i + k))) ∘ Nat.succ) =
        (fun k => !(deliver (i + 1 + k))) := by
      funext k
      have harith : i + Nat.succ k = i + 1 + k := by omega
      simp [Function.comp, harith]
    rw [hfun]
    by_cases hd : deliver i
    · simp [hd]
    · simp [hd]
      omega

lemma send_message_ne_nil (deliver : Nat → Bool) (s : BotState) (content : String)
    (h : content ≠ "") : (send_discord_message deliver s content).2 ≠ [] := by
  unfold send_discord_message
  rw [send_chunks_snd]
  rw [Ne, List.map_eq_nil_iff]
  exact chunks_ne_nil h

lemma run_iteration_same_hash (md5 : String → String) (deliver : Nat → Bool)
    (now : Nat) (raw : String) (st : BotState)
    (h : st.last_hash = some (md5 (strip raw))) :
    (run_iteration md5 deliver now (FetchResult.page (some raw)) st).2 = [] := by
  obtain ⟨lh, ec, ls⟩ := st
  have hlh : lh = some (md5 (strip raw)) := h
  subst hlh
  by_cases hc : strip raw = ""
  · simp [run_iteration, get_forecast_discussion, hc]
  · simp [run_iteration, get_forecast_discussion, calculate_hash, hc]

/-- C10: when the marked region is present but its text strips to the empty
string, the fetch still counts as a success for the Health Monitor (error
counter reset to zero, last-success timestamp updated) and returns the empty
string; the poll loop then treats that empty result as absent content — it
computes no fingerprint, dispatches no notification, and leaves `last_hash`
unchanged. -/
theorem empty_content_success_no_notify (md5 : String → String)
    (deliver : Nat → Bool) (now : Nat) (raw : String) (s : BotState)
    (h : strip raw = "") :
    get_forecast_discussion now s (FetchResult.page (some raw)) =
      ({ s with error_count := 0, last_success := some now }, some ("")) ∧
    run_iteration md5 deliver now (FetchResult.page (some raw)) s =
      ({ s with error_count := 0, last_success := some now }, []) := by
  constructor
  · show ({ s with error_count := 0, last_success := some now },
      some (strip raw)) = _
    rw [h]
  · unfold run_iteration get_forecast_discussion
    simp [h]

/-- C10 witness: a region of one space character strips to the empty string;
`run_iteration` on it from the fresh state records a success and sends
nothing. -/
theorem empty_content_success_no_notify_wit :
    strip (" ") = "" ∧
    run_iteration (fun x => x) (fun _ => true) 7 (FetchResult.page (some (" ")))
      initState =
      ({ initState with error_count := 0, last_success := some 7 }, []) := by
  have h := empty_content_success_no_notify (fun x => x) (fun _ => true) 7
    (" ") initState (by decide)
  exact ⟨by decide, h.2⟩

/-- C8: on every iteration that dispatches a notification (initial or
update), `last_hash` already holds the newly computed fingerprint when the
dispatch begins — the dispatch is exactly `send_discord_message` run from a
state whose `last_hash` is the new fingerprint, and the final `last_hash` is
that fingerprint regardless of delivery outcomes — so a later fetch of
byte-identical content dispatches nothing, even if every delivery of the
first notification failed. -/
theorem last_hash_set_before_dispatch (md5 : String → String)
    (deliver : Nat → Bool) (now : Nat) (raw : String) (s : BotState)
    (hne : strip raw ≠ "")
    (hnew : s.last_hash = none ∨ some (md5 (strip raw)) ≠ s.last_hash) :
    (∃ msg, run_iteration md5 deliver now (FetchResult.page (some raw)) s =
      send_discord_message deliver
        { last_hash := some (md5 (strip raw)), error_count := 0,
          last_success := some now } msg) ∧
    (run_iteration md5 deliver now (FetchResult.page (some raw)) s).1.last_hash =
      some (md5 (strip raw)) ∧
    ∀ (deliver2 : Nat → Bool) (now2 : Nat),
      (run_iteration md5 deliver2 now2 (FetchResult.page (some raw))
        ((run_iteration md5 deliver now (FetchResult.page (some raw)) s).1)).2 =
        [] := by
  obtain ⟨lh, ec, ls⟩ := s
  have hmain : ∃ msg, run_iteration md5 deliver now (FetchResult.page (some raw))
      (BotState.mk lh ec ls) =
      send_discord_message deliver
        { last_hash := some (md5 (strip raw)), error_count := 0,
          last_success := some now } msg := by
    cases hnew with
    | inl h0 =>
      have hlh : lh = none := h0
      subst hlh
      refine ⟨"Bot started. Current forecast:\n\n" ++ strip raw, ?_⟩
      simp [run_iteration, get_forecast_discussion, calculate_hash, hne]
    | inr hdiff =>
      cases lh with
      | none =>
        refine ⟨"Bot started. Current forecast:\n\n" ++ strip raw, ?_⟩
        simp [run_iteration, get_forecast_discussion, calculate_hash, hne]
      | some h0 =>
        have hd : md5 (strip raw) ≠ h0 := by
          intro he
          exact hdiff (by rw [he])
        refine ⟨"New forecast update:\n\n" ++ strip raw, ?_⟩
        simp [run_iteration, get_forecast_discussion, calculate_hash, hne, hd]
  obtain ⟨msg, hmsg⟩ := hmain
  have hfst : (run_iteration md5 deliver now (FetchResult.page (some raw))
      (BotState.mk lh ec ls)).1.last_hash = some (md5 (strip raw)) := by
    rw [hmsg]
    unfold send_discord_message
    rw [send_chunks_last_hash]
  refine ⟨⟨msg, hmsg⟩, hfst, ?_⟩
  intro deliver2 now2
  exact run_iteration_same_hash md5 deliver2 now2 raw _ hfst

/-- C8 witness: from the fresh state, content "a" is announced with every
delivery failing; `last_hash` still ends up holding the fingerprint of "a",
and a second fetch of the identical content dispatches nothing. -/
theorem last_hash_set_before_dispatch_wit :
    (run_iteration (fun x => x) (fun _ => false) 0 (FetchResult.page (some ("a")))
      initState).1.last_hash = some ((fun x => x) (strip ("a"))) ∧
    (run_iteration (fun x => x) (fun _ => true) 1 (FetchResult.page (some ("a")))
      ((run_iteration (fun x => x) (fun _ => false) 0 (FetchResult.page (some ("a")))
        initState).1)).2 = [] := by
  have h := last_hash_set_before_dispatch (fun x => x) (fun _ => false) 0 ("a")
    initState (by decide) (Or.inl rfl)
  exact ⟨h.2.1, h.2.2 (fun _ => true) 1⟩

/-- C1 counterexample: in a session started from the fresh bot state, the
first fetch succeeds (the marked region is present, the error counter is
reset and the success returned) but its text strips to the empty string, so
— contrary to clause (a) of the claim — no notification is dispatched on the
iteration of the first successful fetch of the session. -/
theorem notification_iff_cex :
    (get_forecast_discussion 0 (startSession 0 initState)
      (FetchResult.page (some ("")))).2 = some ("") ∧
    (run_iteration (fun x => x) (fun _ => true) 0 (FetchResult.page (some ("")))
      (startSession 0 initState)).2 = [] := by
  constructor
  · rfl
  · rfl

/-- C1 amended: on every iteration of the poll loop, a notification is
dispatched if and only if the fetch succeeded with non-empty stripped
content and either `last_hash` is unset or the fingerprint computed from the
content differs from `last_hash`; on every other iteration (fetch failure,
empty content, or identical fingerprint) no notification is dispatched. -/
theorem notification_iff_nonempty_new_fingerprint (md5 : String → String)
    (deliver : Nat → Bool) (now : Nat) (r : FetchResult) (s : BotState) :
    (run_iteration md5 deliver now r s).2 ≠ [] ↔
      ∃ c, (get_forecast_discussion now s r).2 = some c ∧ c ≠ "" ∧
        (s.last_hash = none ∨ some (md5 c) ≠ s.last_hash) := by
  obtain ⟨lh, ec, ls⟩ := s
  cases r with
  | transportError => simp [run_iteration, get_forecast_discussion]
  | badStatus => simp [run_iteration, get_forecast_discussion]
  | page region =>
    cases region with
    | none => simp [run_iteration, get_forecast_discussion]
    | some raw =>
      by_cases hc : strip raw = ""
      · simp [run_iteration, get_forecast_discussion, hc]
      · cases lh with
        | none =>
          simp only [run_iteration, get_forecast_discussion, calculate_hash,
            hc, if_false]
          constructor
          · intro _
            exact ⟨strip raw, rfl, hc, Or.inl trivial⟩
          · intro _
            exact send_message_ne_nil _ _ _
              (append_ne_empty_left ("Bot started. Current forecast:\n\n") _
                (by decide))
        | some h0 =>
          by_cases hh : md5 (strip raw) = h0
          · simp [run_iteration, get_forecast_discussion, calculate_hash, hc, hh]
          · simp only [run_iteration, get_forecast_discussion, calculate_hash]
            simp only [hc, if_false, hh, ite_not, if_false]
            constructor
            · intro _
              refine ⟨strip raw, rfl, hc, Or.inr ?_⟩
              intro he
              exact hh (Option.some_injective _ he)
            · intro _
              exact send_message_ne_nil _ _ _
                (append_ne_empty_left ("New forecast update:\n\n") _
                  (by decide))

/-- C2 counterexample: the outer loop of `run` does not clear `last_hash`
when a new session starts.  After a first session announces content "a", a
session started afterwards still has `last_hash = some "a"` (not `none`),
and its first successful fetch — returning the same content "a" — dispatches
no notification at all, instead of exactly one "initial" notification. -/
theorem session_keeps_last_hash_cex :
    (startSession 100
      ((run_iteration (fun x => x) (fun _ => true) 0 (FetchResult.page (some ("a")))
        (startSession 0 initState)).1)).last_hash = some ("a") ∧
    (run_iteration (fun x => x) (fun _ => true) 100 (FetchResult.page (some ("a")))
      (startSession 100
        ((run_iteration (fun x => x) (fun _ => true) 0 (FetchResult.page (some ("a")))
          (startSession 0 initState)).1))).2 = [] := by
  constructor
  · decide
  · decide

/-- C2 amended: on entering a new polling session, `run` resets
`error_count` to 0 and `last_success` to the current time but preserves
`last_hash`; consequently a session whose inherited `last_hash` equals the
fingerprint of the next fetched content dispatches no notification on its
first successful fetch (only the very first session of a fresh bot, where
`last_hash` is `none`, unconditionally announces its first non-empty
content with the "initial" framing). -/
theorem session_reset_preserves_fingerprint (now : Nat) (s : BotState) :
    startSession now s =
      { last_hash := s.last_hash, error_count := 0, last_success := some now } ∧
    ∀ (md5 : String → String) (deliver : Nat → Bool) (now2 : Nat) (raw : String),
      (run_iteration md5 deliver now2 (FetchResult.page (some raw))
        (startSession now { s with last_hash := some (md5 (strip raw)) })).2 =
        [] := by
  constructor
  · rfl
  · intro md5 deliver now2 raw
    exact run_iteration_same_hash md5 deliver now2 raw _ rfl

lemma chunksL_flatten : ∀ (n : Nat) (l : List Char), l.length ≤ n →
    ((List.range ((l.length + 1899) / 1900)).map
      (fun k => (l.drop (1900 * k)).take 1900)).flatten = l := by
  intro n
  induction n with
  | zero =>
    intro l hl
    have hnil : l = [] := List.eq_nil_of_length_eq_zero (Nat.le_zero.mp hl)
    subst hnil
    rfl
  | succ n ih =>
    intro l hl
    cases l with
    | nil => rfl
    | cons c t =>
      have hlt : t.length + 1 ≤ n + 1 := by simpa using hl
      have hcnt : ((c :: t).length + 1899) / 1900 =
          (((c :: t).drop 1900).length + 1899) / 1900 + 1 := by
        rw [List.length_drop]
        simp only [List.length_cons]
        omega
      rw [hcnt, List.range_succ_eq_map, List.map_cons, List.map_map,
        List.flatten_cons]
      have hfun : ((fun k => ((c :: t).drop (1900 * k)).take 1900) ∘ Nat.succ) =
          (fun k => (((c :: t).drop 1900).drop (1900 * k)).take 1900) := by
        funext k
        simp only [Function.comp]
        rw [List.drop_drop]
        have harith : 1900 * Nat.succ k = 1900 + 1900 * k := by omega
        rw [harith]
      rw [hfun]
      rw [ih ((c :: t).drop 1900)
        (by rw [List.length_drop]; simp only [List.length_cons]; omega)]
      simp

lemma string_foldl_append_data : ∀ (L : List String) (a : String),
    (L.foldl (fun r s2 => r ++ s2) a).data = a.data ++ (L.map String.data).flatten := by
  intro L
  induction L with
  | nil => intro a; simp
  | cons c rest ih =>
    intro a
    simp only [List.foldl_cons, List.map_cons, List.flatten_cons]
    rw [ih]
    have hd : (a ++ c).data = a.data ++ c.data := rfl
    rw [hd, List.append_assoc]

lemma string_join_data (L : List String) :
    (String.join L).data = (L.map String.data).flatten := by
  have h := string_foldl_append_data L ""
  rw [show ("" : String).data = [] from rfl, List.nil_append] at h
  exact h

/-- C6: for every text of positive length L, the splitting step of
`send_discord_message` produces exactly ceil(L / 1900) = (L + 1899) / 1900
consecutive segments in original order, each of length at most 1900
characters, and their concatenation (before the backtick wrapping is added)
is exactly the original text. -/
theorem chunks_spec (content : String) (_h : 0 < content.length) :
    (chunks content).length = (content.length + 1899) / 1900 ∧
    (∀ chunk ∈ chunks content, chunk.length ≤ 1900) ∧
    String.join (chunks content) = content := by
  refine ⟨?_, ?_, ?_⟩
  · unfold chunks
    rw [List.length_map, List.length_range]
  · intro chunk hmem
    unfold chunks at hmem
    rw [List.mem_map] at hmem
    obtain ⟨k, _, hk⟩ := hmem
    subst hk
    have hlen : (String.mk ((content.data.drop (1900 * k)).take 1900)).length =
        ((content.data.drop (1900 * k)).take 1900).length := rfl
    rw [hlen, List.length_take]
    exact Nat.min_le_left _ _
  · apply string_ext
    rw [string_join_data]
    have hmap : (chunks content).map String.data =
        (List.range ((content.data.length + 1899) / 1900)).map
          (fun k => (content.data.drop (1900 * k)).take 1900) := by
      unfold chunks
      rw [List.map_map]
      rfl
    rw [hmap]
    exact chunksL_flatten content.data.length content.data (Nat.le_refl _)

/-- C6 witness: the three-character text "abc" has positive length and is
split into exactly one segment, of length at most 1900, which joins back to
"abc". -/
theorem chunks_spec_wit :
    0 < ("abc").length ∧
    ((chunks ("abc")).length = (("abc").length + 1899) / 1900 ∧
      (∀ chunk ∈ chunks ("abc"), chunk.length ≤ 1900) ∧
      String.join (chunks ("abc")) = ("abc")) :=
  ⟨by decide, chunks_spec ("abc") (by decide)⟩

/-- C7: for every content, every starting state and every pattern of
per-segment delivery outcomes, `send_discord_message` attempts every wrapped
segment in order (a failure on segment i never prevents the attempts on
segments i+1..n), increments the error counter by exactly one per failed
segment, leaves the rest of the state untouched, and returns normally (it is
a total function whose result the other conjuncts describe). -/
theorem send_discord_message_spec (deliver : Nat → Bool) (s : BotState)
    (content : String) :
    (send_discord_message deliver s content).2 =
      (chunks content).map (fun chunk => "```" ++ chunk ++ "```") ∧
    (send_discord_message deliver s content).1.error_count =
      s.error_count + (List.range (chunks content).length).countP
        (fun i => !(deliver i)) ∧
    (send_discord_message deliver s content).1.last_hash = s.last_hash ∧
    (send_discord_message deliver s content).1.last_success = s.last_success := by
  refine ⟨send_chunks_snd deliver (chunks content) 0 s, ?_,
    send_chunks_last_hash deliver (chunks content) 0 s,
    send_chunks_last_success deliver (chunks content) 0 s⟩
  unfold send_discord_message
  rw [send_chunks_error_count]
  simp
